import Mathlib

/-!
Verification of the AgentHub process manager (src/src-tauri/src/lib.rs).

The Rust code manages external CLI agent processes: a lock-protected
registry maps an agent id to a record (id, name, status, optional child
handle); commands spawn a child with piped stdio, write lines to its
stdin, kill it, snapshot all statuses, and discover installed agents.

Shallow embedding: each Tauri command becomes a pure Lean function over
an explicit registry value.  Interactions with the operating system
(process launch, kill, try_wait polling, pipe writes, PATH lookup,
version probing) are nondeterministic inputs, passed as explicit outcome
parameters, so that a theorem quantifying over them covers every OS
behaviour.  The registry (a Rust HashMap) is modelled as an association
list; insertion replaces any previous binding, as HashMap::insert does.
-/

namespace AgentHub

/-- Status of an agent process (Rust enum AgentStatus). -/
inductive AgentStatus where
  | Running
  | Stopped
  | Error (reason : String)
deriving DecidableEq, Repr

/-- Serialisable snapshot row returned to the frontend (Rust struct AgentInfo). -/
structure AgentInfo where
  id : String
  name : String
  status : AgentStatus
deriving DecidableEq, Repr

/-- Payload emitted whenever an agent writes a line to stdout/stderr
(Rust struct AgentOutputEvent). -/
structure AgentOutputEvent where
  id : String
  data : String
  stream : String
deriving DecidableEq, Repr

/-- The part of a std::process::Child handle the registry logic observes:
whether the stdin pipe is still present (`child.stdin` is an Option in
Rust; it is piped at spawn and never taken). -/
structure Child where
  stdinPresent : Bool
deriving DecidableEq, Repr

/-- Internal bookkeeping for a single managed agent (Rust struct AgentProcess). -/
structure AgentProcess where
  id : String
  name : String
  status : AgentStatus
  child : Option Child
deriving DecidableEq, Repr

/-- The registry map `HashMap<String, AgentProcess>` of AgentManager,
modelled as an association list. -/
abbrev Registry := List (String × AgentProcess)

namespace Registry

/-- HashMap::get. -/
def find (r : Registry) (id : String) : Option AgentProcess :=
  (r.find? (fun p => p.1 == id)).map (fun p => p.2)

/-- HashMap::remove. -/
def erase (r : Registry) (id : String) : Registry :=
  r.filter (fun p => p.1 != id)

/-- HashMap::insert: replaces any existing binding of the key. -/
def insert (r : Registry) (id : String) (a : AgentProcess) : Registry :=
  erase r id ++ [(id, a)]

/-- In-place mutation through HashMap::get_mut: rebind the key without
moving the entry. -/
def update (r : Registry) (id : String) (a : AgentProcess) : Registry :=
  r.map (fun p => if p.1 == id then (p.1, a) else p)

/-- Well-formedness the code maintains: every record stores the key it is
filed under (spawn_agent inserts the same `id` in both places). -/
def WF (r : Registry) : Prop := ∀ p ∈ r, p.2.id = p.1

instance (r : Registry) : Decidable (WF r) := by
  unfold WF; infer_instance

end Registry

/-- Friendly display name built by spawn_agent from the command and args. -/
def agentName (command : String) (args : List String) : String :=
  if args.isEmpty then command else command ++ " " ++ String.intercalate " " args

/-- Everything spawn_agent produces: the command result, the registry
after the call, and how many stream-reader threads were started. -/
structure SpawnOutput where
  result : Except String AgentInfo
  registry : Registry
  readerThreads : Nat
deriving Repr

/-- Launch step of spawn_agent (Command::spawn and everything after it):
`launch` is the OS outcome of creating the child process.  On failure the
`?` operator returns the formatted error at once — no thread is started
and nothing is inserted.  On success both reader threads are started and
a fresh Running record is inserted. -/
def spawnLaunch (id command : String) (args : List String)
    (launch : Except String Child) (r : Registry) : SpawnOutput :=
  match launch with
  | .error e =>
      { result := .error ("Nepodařilo se spustit '" ++ command ++ "': " ++ e)
        registry := r
        readerThreads := 0 }
  | .ok child =>
      let name := agentName command args
      { result := .ok { id := id, name := name, status := .Running }
        registry := Registry.insert r id
          { id := id, name := name, status := .Running, child := some child }
        readerThreads := 2 }

/-- Rust fn spawn_agent.  First the guard: an existing record that is not
Running is removed (auto-remove of dead agents, allowing restart); an
existing Running record aborts with the already-running error.  Then the
launch step. -/
def spawn_agent (id command : String) (args : List String)
    (launch : Except String Child) (r : Registry) : SpawnOutput :=
  match Registry.find r id with
  | some existing =>
      if existing.status = AgentStatus.Running then
        { result := .error ("Agent '" ++ id ++ "' už běží")
          registry := r
          readerThreads := 0 }
      else
        spawnLaunch id command args launch (Registry.erase r id)
  | none => spawnLaunch id command args launch r

/-- OS outcomes of the three stdin operations send_to_agent performs:
write_all of the input bytes, write_all of the newline, flush. -/
structure SendEffects where
  writeInput : Except String Unit
  writeNewline : Except String Unit
  flush : Except String Unit

/-- Rust fn send_to_agent: look the agent up, require status Running, a
child handle and a stdin pipe, then write the input, a newline, and
flush, surfacing the first I/O error.  The registry is not mutated. -/
def send_to_agent (id input : String) (eff : SendEffects) (r : Registry) :
    Except String Unit :=
  match Registry.find r id with
  | none => .error ("Agent '" ++ id ++ "' not found")
  | some agent =>
      if agent.status ≠ AgentStatus.Running then
        .error ("Agent '" ++ id ++ "' is not running")
      else
        match agent.child with
        | none => .error ("Agent '" ++ id ++ "' has no child process")
        | some child =>
            if child.stdinPresent = false then
              .error ("Agent '" ++ id ++ "' stdin not available")
            else
              match eff.writeInput with
              | .error e => .error ("Failed to write to stdin: " ++ e)
              | .ok _ =>
                  match eff.writeNewline with
                  | .error e => .error ("Failed to write newline: " ++ e)
                  | .ok _ =>
                      match eff.flush with
                      | .error e => .error ("Failed to flush stdin: " ++ e)
                      | .ok _ => .ok ()

/-- Rust fn stop_agent: look the agent up; if a child handle exists, kill
it — a kill error is propagated by `?` and nothing is changed — then wait
(result ignored with `let _ =`).  After a successful kill (or with no
handle at all) the record is marked Stopped and the handle discarded. -/
def stop_agent (id : String) (killResult : Except String Unit)
    (waitResult : Except String Int) (r : Registry) :
    Except String AgentInfo × Registry :=
  match Registry.find r id with
  | none => (.error ("Agent '" ++ id ++ "' not found"), r)
  | some agent =>
      match agent.child with
      | some _ =>
          match killResult with
          | .error e =>
              (.error ("Failed to kill agent '" ++ id ++ "': " ++ e), r)
          | .ok _ =>
              let stopped : AgentProcess :=
                { agent with status := .Stopped, child := none }
              (.ok { id := stopped.id, name := stopped.name, status := stopped.status },
               Registry.update r id stopped)
      | none =>
          let stopped : AgentProcess :=
            { agent with status := .Stopped, child := none }
          (.ok { id := stopped.id, name := stopped.name, status := stopped.status },
           Registry.update r id stopped)

/-- Outcome of Child::try_wait as get_agents_status sees it: the process
exited (with an exit code, or none when killed by a signal), is still
running, or the poll itself failed.  ExitStatus::success() holds exactly
when the code is 0; ExitStatus::code() is `some` exactly when a code
exists, and get_agents_status substitutes -1 otherwise. -/
inductive TryWaitResult where
  | exited (code : Option Int)
  | stillRunning
  | pollError (e : String)
deriving DecidableEq, Repr

/-- Status refresh get_agents_status applies to one record: a Running
record with a handle is polled; a clean exit becomes Stopped, a non-zero
exit becomes Error with the code (-1 when none), a poll failure becomes
Error with the message; a Running record without a handle becomes
Stopped; anything else is untouched. -/
def refreshAgent (poll : TryWaitResult) (a : AgentProcess) : AgentProcess :=
  if a.status = AgentStatus.Running then
    match a.child with
    | some _ =>
        match poll with
        | .exited code =>
            if code = some 0 then { a with status := .Stopped }
            else
              { a with status :=
                  .Error ("Exited with code " ++ toString (code.getD (-1))) }
        | .stillRunning => a
        | .pollError e =>
            { a with status := .Error ("Failed to poll status: " ++ e) }
    | none => { a with status := .Stopped }
  else a

/-- Rust fn get_agents_status: refresh every record in place and return
one AgentInfo per record.  `poll` gives the try_wait outcome for each
agent id. -/
def get_agents_status (poll : String → TryWaitResult) (r : Registry) :
    List AgentInfo × Registry :=
  let r2 := r.map (fun p => (p.1, refreshAgent (poll p.1) p.2))
  (r2.map (fun p =>
    { id := p.2.id, name := p.2.name, status := p.2.status : AgentInfo }), r2)

/-- Trailing carriage-return strip of BufRead::lines: after the newline
is removed, a line that still ends with CR loses that CR too. -/
def stripTrailingCR (l : List Char) : List Char :=
  if l.getLast? = some '\r' then l.dropLast else l

/-- Line loop of BufRead::lines over the full content of a stream, with
an accumulator for the current line: each newline terminates a line
(stripping a preceding CR); end of stream with a non-empty accumulator
still yields that final partial line, exactly as read_line returns the
remainder of a stream that closes mid-line. -/
def linesGo (acc : List Char) : List Char → List String
  | [] => if acc.isEmpty then [] else [⟨acc⟩]
  | c :: cs =>
      if c = '\n' then ⟨stripTrailingCR acc⟩ :: linesGo [] cs
      else linesGo (acc ++ [c]) cs

/-- BufRead::lines over the full content of a stream. -/
def linesOf (cs : List Char) : List String := linesGo [] cs

/-- Reader thread of spawn_agent for one output stream: one agent-output
event per line yielded by BufRead::lines, in order, tagged with the
agent id and the stream name. -/
def readerEvents (agentId streamName : String) (content : List Char) :
    List AgentOutputEvent :=
  (linesOf content).map (fun line =>
    { id := agentId, data := line, stream := streamName })

/-- Stream content produced by a process that writes each of `ls` as a
newline-terminated line and then `frag` with no terminator before the
stream closes. -/
def encodeStream (ls : List String) (frag : String) : List Char :=
  ls.foldr (fun l acc => l.data ++ '\n' :: acc) frag.data

/-- Static agent signature metadata (Rust struct AgentSignature). -/
structure AgentSignature where
  command : String
  name : String
  short_name : String
  color : String
  npm_package : String
deriving DecidableEq, Repr

/-- Rust fn agent_signatures: the static catalog. -/
def agent_signatures : List AgentSignature :=
  [ { command := "claude", name := "Claude Code", short_name := "CC",
      color := "#00FF64", npm_package := "@anthropic-ai/claude-code" },
    { command := "codex", name := "Codex CLI", short_name := "CX",
      color := "#3B82F6", npm_package := "@openai/codex" },
    { command := "gemini", name := "Gemini CLI", short_name := "GM",
      color := "#FFB800", npm_package := "@anthropic-ai/gemini-cli" },
    { command := "aider", name := "Aider", short_name := "AI",
      color := "#9333EA", npm_package := "" },
    { command := "cody", name := "Cody CLI", short_name := "CD",
      color := "#FF5733", npm_package := "" },
    { command := "continue", name := "Continue", short_name := "CN",
      color := "#1389FD", npm_package := "" },
    { command := "cursor", name := "Cursor Agent", short_name := "CR",
      color := "#7C3AED", npm_package := "" },
    { command := "amp", name := "Amp", short_name := "AM",
      color := "#F59E0B", npm_package := "" } ]

/-- Dynamic discovery report row (Rust struct DiscoveredAgent). -/
structure DiscoveredAgent where
  id : String
  name : String
  short_name : String
  command : String
  path : String
  color : String
  version : String
  available : Bool
deriving DecidableEq, Repr

/-- Outcome of the version probe in get_version, as observed through
Command::spawn and wait_timeout: the spawn failed, the 3-second wait
timed out, the wait itself failed, or the child exited with the given
code (none when signalled) having written the given first lines to its
stdout and stderr pipes. -/
inductive ProbeOutcome where
  | spawnFailed (e : String)
  | timeout
  | waitFailed (e : String)
  | exited (code : Option Int) (stdoutLine : String) (stderrLine : String)
deriving DecidableEq, Repr

/-- Bound passed to wait_timeout in get_version (Duration::from_secs 3). -/
def get_version_timeout_secs : Nat := 3

/-- Rust fn get_version together with whether it killed the probe: only a
wait that returns a *successful* exit status reads the pipes — it takes
the first stdout line, trimmed, falling back to the first stderr line
when that is empty; every other branch (timeout, wait error, non-zero
exit) kills the probe and returns the empty string, and a spawn failure
returns the empty string without killing anything. -/
def get_version_run (probe : ProbeOutcome) : String × Bool :=
  match probe with
  | .spawnFailed _ => ("", false)
  | .timeout => ("", true)
  | .waitFailed _ => ("", true)
  | .exited code out err =>
      if code = some 0 then
        let stdout := out.trim
        if stdout.isEmpty then (err.trim, false) else (stdout, false)
      else ("", true)

/-- Version string get_version reports. -/
def get_version (probe : ProbeOutcome) : String := (get_version_run probe).1

/-- Rust fn scan_npm_global, with the substring test on the npm listing
text abstracted as `containsPkg`: a signature whose npm package name is
non-empty and appears in the listing contributes one (package, command)
pair. -/
def scan_npm_global (containsPkg : String → Bool) : List (String × String) :=
  (agent_signatures.filter
    (fun sig => !sig.npm_package.isEmpty && containsPkg sig.npm_package)).map
    (fun sig => (sig.npm_package, sig.command))

/-- Loop body of discover_agents for one signature (phases 2 and 3):
resolve the command on the PATH — an unresolved signature contributes
nothing — then measure the version and assemble the entry with the
resolved path and available = true. -/
def discoverEntry (findOnPath : String → Option String)
    (probeFor : String → ProbeOutcome) (sig : AgentSignature) :
    Option DiscoveredAgent :=
  match findOnPath sig.command with
  | some path =>
      some { id := sig.command, name := sig.name,
             short_name := sig.short_name, command := sig.command,
             path := path, color := sig.color,
             version := get_version (probeFor sig.command),
             available := true }
  | none => none

/-- Rust fn discover_agents, with the OS interactions abstracted:
`containsPkg` stands for the npm listing (phase 1, which only feeds the
never-read seen_commands set), `findOnPath` for the `which`/`where`
lookup and `probeFor` for the version probe of each command. -/
def discover_agents (containsPkg : String → Bool)
    (findOnPath : String → Option String)
    (probeFor : String → ProbeOutcome) : List DiscoveredAgent :=
  let _npm_agents := scan_npm_global containsPkg
  agent_signatures.filterMap (discoverEntry findOnPath probeFor)

/-- Modelled from the spec: the one-shot invocation mode of section 4.5
(the `run` command, its Busy Set and the `is_busy` query) has no source
under src/ — only the interactive model is in the repository — so the
busy tracker is modelled from the spec's words.  The Busy Set is a
lock-guarded set of identifiers; `run` checks membership and inserts
atomically under the lock, failing with AlreadyBusy when present. -/
def runCheckAndMark (busy : List String) (id : String) :
    Except String (List String) :=
  if id ∈ busy then .error "AlreadyBusy" else .ok (id :: busy)

/-- Modelled from the spec: completion of the one-shot background work
removes the identifier from the Busy Set unconditionally. -/
def runFinish (busy : List String) (id : String) : List String :=
  busy.filter (fun b => b ≠ id)

/-- Modelled from the spec: the whole `run(id, ...)` lifecycle against
the Busy Set.  The atomic check-and-mark either fails (AlreadyBusy, set
unchanged, no Done event) or marks the id; the background work then
launches the process — `launch` is its OS outcome, an exit code on
success — emits a Done event carrying the exit code (-1 sentinel when
the launch failed) and clears the busy marker unconditionally.  Returns
the command result, the final Busy Set and the emitted Done code. -/
def run_agent (busy : List String) (id : String) (launch : Except String Int) :
    Except String Unit × List String × Option Int :=
  match runCheckAndMark busy id with
  | .error e => (.error e, busy, none)
  | .ok marked =>
      let code : Int :=
        match launch with
        | .ok c => c
        | .error _ => -1
      (.ok (), runFinish marked id, some code)

/-- Modelled from the spec: `is_busy(id)` is a pure membership query. -/
def is_busy (busy : List String) (id : String) : Bool := id ∈ busy

/-! Helper lemmas about the registry model. -/

theorem Registry.find_erase_self (r : Registry) (id : String) :
    Registry.find (Registry.erase r id) id = none := by
  unfold Registry.find Registry.erase
  simp only [Option.map_eq_none']
  rw [List.find?_eq_none]
  intro p hp
  have h := (List.mem_filter.mp hp).2
  simp only [bne_iff_ne, ne_eq] at h
  simp [h]

theorem Registry.find_insert_self (r : Registry) (id : String) (a : AgentProcess) :
    Registry.find (Registry.insert r id a) id = some a := by
  have h1 : (Registry.erase r id).find? (fun p => p.1 == id) = none := by
    have h := Registry.find_erase_self r id
    unfold Registry.find at h
    exact Option.map_eq_none'.mp h
  unfold Registry.insert Registry.find
  rw [List.find?_append, h1]
  simp [List.find?]

theorem Registry.find?_mapVal (g : String × AgentProcess → AgentProcess)
    (r : Registry) (id : String) :
    (r.map (fun p => (p.1, g p))).find? (fun p => p.1 == id) =
      (r.find? (fun p => p.1 == id)).map (fun p => (p.1, g p)) := by
  induction r with
  | nil => rfl
  | cons p r ih =>
      by_cases h : (p.1 == id) = true
      · simp [h]
      · simp [h, ih]

theorem Registry.find_mapVal_of_find (g : String × AgentProcess → AgentProcess)
    (r : Registry) (id : String) (a : AgentProcess)
    (h : Registry.find r id = some a) :
    Registry.find (r.map (fun p => (p.1, g p))) id = some (g (id, a)) := by
  unfold Registry.find at h ⊢
  obtain ⟨q, hq, hq2⟩ := Option.map_eq_some'.mp h
  have hkey : (fun p : String × AgentProcess => p.1 == id) q = true :=
    List.find?_some (p := fun p : String × AgentProcess => p.1 == id) hq
  have hkey' : q.1 = id := by simpa using hkey
  rw [Registry.find?_mapVal, hq]
  simp only [Option.map_some']
  show some (g q) = some (g (id, a))
  rw [← hkey', ← hq2]

theorem Registry.update_eq_mapVal (r : Registry) (id : String) (a : AgentProcess) :
    Registry.update r id a =
      r.map (fun p => (p.1, if p.1 == id then a else p.2)) := by
  unfold Registry.update
  congr 1
  funext p
  by_cases h : (p.1 == id) = true
  · simp [h]
  · simp [h]

theorem Registry.find_update_self (r : Registry) (id : String)
    (a b : AgentProcess) (h : Registry.find r id = some b) :
    Registry.find (Registry.update r id a) id = some a := by
  rw [Registry.update_eq_mapVal]
  rw [Registry.find_mapVal_of_find (fun p => if p.1 == id then a else p.2) r id b h]
  simp

theorem Registry.WF_erase (r : Registry) (id : String) (h : Registry.WF r) :
    Registry.WF (Registry.erase r id) := by
  intro p hp
  exact h p (List.mem_filter.mp hp).1

theorem refreshAgent_id (t : TryWaitResult) (a : AgentProcess) :
    (refreshAgent t a).id = a.id := by
  unfold refreshAgent
  by_cases hs : a.status = AgentStatus.Running
  · cases hc : a.child with
    | none => simp [hs, hc]
    | some c =>
        cases t with
        | exited code =>
            by_cases h0 : code = some 0 <;> simp [hs, hc, h0]
        | stillRunning => simp [hs, hc]
        | pollError e => simp [hs, hc]
  · simp [hs]

theorem snapshot_excludes (poll : String → TryWaitResult) (r : Registry)
    (id : String) (hwf : Registry.WF r) (hnone : Registry.find r id = none) :
    ∀ info ∈ (get_agents_status poll r).1, info.id ≠ id := by
  intro info hinfo
  unfold get_agents_status at hinfo
  simp only [List.map_map, List.mem_map, Function.comp] at hinfo
  obtain ⟨p, hp, hinfo⟩ := hinfo
  have h1 : info.id = (refreshAgent (poll p.1) p.2).id := by rw [← hinfo]
  rw [refreshAgent_id, hwf p hp] at h1
  unfold Registry.find at hnone
  have h2 := List.find?_eq_none.mp (Option.map_eq_none'.mp hnone) p hp
  simp only [beq_iff_eq] at h2
  rw [h1]
  exact h2

theorem stripTrailingCR_of_no_CR (l : List Char) (h : l.getLast? ≠ some '\r') :
    stripTrailingCR l = l := by
  unfold stripTrailingCR
  simp [h]

theorem linesGo_line (l : List Char) :
    ∀ (acc rest : List Char), '\n' ∉ l →
      linesGo acc (l ++ '\n' :: rest) =
        ⟨stripTrailingCR (acc ++ l)⟩ :: linesGo [] rest := by
  induction l with
  | nil =>
      intro acc rest _
      simp [linesGo]
  | cons c l ih =>
      intro acc rest hl
      have hc : c ≠ '\n' := fun h => hl (by simp [h])
      have hl' : '\n' ∉ l := fun h => hl (by simp [h])
      simp only [List.cons_append, linesGo, if_neg hc, List.append_eq]
      rw [ih (acc ++ [c]) rest hl']
      simp [List.append_assoc]

theorem linesGo_noNewline (p : List Char) :
    ∀ acc : List Char, '\n' ∉ p →
      linesGo acc p = if (acc ++ p).isEmpty then [] else [⟨acc ++ p⟩] := by
  induction p with
  | nil =>
      intro acc _
      simp [linesGo]
  | cons c p ih =>
      intro acc hp
      have hc : c ≠ '\n' := fun h => hp (by simp [h])
      have hp' : '\n' ∉ p := fun h => hp (by simp [h])
      simp only [linesGo, if_neg hc]
      rw [ih (acc ++ [c]) hp']
      simp [List.append_assoc]

theorem linesOf_encodeStream (ls : List String) (frag : String)
    (hls : ∀ l ∈ ls, '\n' ∉ l.data ∧ l.data.getLast? ≠ some '\r')
    (hfrag : '\n' ∉ frag.data) :
    linesOf (encodeStream ls frag) = ls ++ (if frag = "" then [] else [frag]) := by
  induction ls with
  | nil =>
      unfold linesOf encodeStream
      simp only [List.foldr_nil]
      rw [linesGo_noNewline frag.data [] hfrag]
      cases frag with
      | mk data =>
          cases data with
          | nil => simp
          | cons c cs =>
              have hne : ({ data := c :: cs } : String) ≠ "" :=
                fun h => List.cons_ne_nil c cs (congrArg String.data h)
              simp [if_neg hne]
  | cons l ls ih =>
      have hl := hls l (List.mem_cons_self l ls)
      have hls' : ∀ x ∈ ls, '\n' ∉ x.data ∧ x.data.getLast? ≠ some '\r' :=
        fun x hx => hls x (List.mem_cons_of_mem l hx)
      unfold linesOf encodeStream at ih ⊢
      simp only [List.foldr_cons]
      rw [linesGo_line l.data [] _ hl.1, stripTrailingCR_of_no_CR _ (by simpa using hl.2)]
      rw [ih hls']
      simp

theorem filterMap_id_sublist (f : AgentSignature → Option DiscoveredAgent)
    (hf : ∀ sig a, f sig = some a → a.id = sig.command) (l : List AgentSignature) :
    ((l.filterMap f).map (fun a => a.id)).Sublist (l.map (fun s => s.command)) := by
  induction l with
  | nil => simp
  | cons sig l ih =>
      cases hsig : f sig with
      | none =>
          simp only [List.filterMap_cons, hsig, List.map_cons]
          exact List.Sublist.cons _ ih
      | some a =>
          simp only [List.filterMap_cons, hsig, List.map_cons]
          rw [hf sig a hsig]
          exact List.Sublist.cons₂ _ ih

/-- Decidable equality for command results, so that concrete runs of the
model can be checked by `decide`. -/
instance exceptDecEq {ε α : Type} [DecidableEq ε] [DecidableEq α] :
    DecidableEq (Except ε α) := fun x y =>
  match x, y with
  | .error a, .error b =>
      if h : a = b then isTrue (by rw [h]) else isFalse (by simp [h])
  | .error _, .ok _ => isFalse (by simp)
  | .ok _, .error _ => isFalse (by simp)
  | .ok a, .ok b =>
      if h : a = b then isTrue (by rw [h]) else isFalse (by simp [h])

/-! Claim theorems. -/

/-- C1, counterexample: the claim says stop(id) returns successfully with
status Stopped even when killing the process itself fails (already
exited); but the code propagates the kill error with `?`.  At a registry
holding a Running record with a process handle, a failing kill makes
stop_agent return the kill error, not a success. -/
theorem C1_counterexample :
    (stop_agent "a" (Except.error "No such process (os error 3)") (Except.ok 0) [("a", { id := "a", name := "cat", status := AgentStatus.Running, child := some { stdinPresent := true } })]).1 =
      Except.error "Failed to kill agent 'a': No such process (os error 3)" ∧
    (stop_agent "a" (Except.error "No such process (os error 3)") (Except.ok 0) [("a", { id := "a", name := "cat", status := AgentStatus.Running, child := some { stdinPresent := true } })]).1 ≠
      Except.ok { id := "a", name := "cat", status := AgentStatus.Stopped } := by
  constructor
  · rfl
  · decide

/-- C1, amended: for every id whose registry record holds a process
handle, stop(id) propagates a kill failure as an error and leaves the
registry unchanged; when the kill succeeds, stop returns successfully
with status Stopped, the record's handle is discarded, and a subsequent
send(id, _) fails with the not-running error. -/
theorem C1_stop_then_send (r : Registry) (id : String) (a : AgentProcess)
    (c : Child) (w : Except String Int)
    (hfind : Registry.find r id = some a) (hchild : a.child = some c) :
    (∀ e, (stop_agent id (.error e) w r).1 =
        .error ("Failed to kill agent '" ++ id ++ "': " ++ e) ∧
      (stop_agent id (.error e) w r).2 = r) ∧
    ((stop_agent id (.ok ()) w r).1 =
        .ok { id := a.id, name := a.name, status := .Stopped } ∧
      Registry.find (stop_agent id (.ok ()) w r).2 id =
        some { a with status := .Stopped, child := none } ∧
      ∀ input eff,
        send_to_agent id input eff (stop_agent id (.ok ()) w r).2 =
          .error ("Agent '" ++ id ++ "' is not running")) := by
  have hfind2 : Registry.find (stop_agent id (.ok ()) w r).2 id =
      some { a with status := .Stopped, child := none } := by
    simp only [stop_agent, hfind, hchild]
    exact Registry.find_update_self r id _ a hfind
  refine ⟨fun e => ⟨?_, ?_⟩, ?_, hfind2, fun input eff => ?_⟩
  · simp [stop_agent, hfind, hchild]
  · simp [stop_agent, hfind, hchild]
  · simp [stop_agent, hfind, hchild]
  · simp [send_to_agent, hfind2]

/-- C1, witness for the amended theorem at a one-record registry. -/
theorem C1_witness :
    (stop_agent "a" (Except.ok ()) (Except.ok 0) [("a", { id := "a", name := "cat", status := AgentStatus.Running, child := some { stdinPresent := true } })]).1 =
      Except.ok { id := "a", name := "cat", status := AgentStatus.Stopped } ∧
    send_to_agent "a" "hello" { writeInput := .ok (), writeNewline := .ok (), flush := .ok () } (stop_agent "a" (Except.ok ()) (Except.ok 0) [("a", { id := "a", name := "cat", status := AgentStatus.Running, child := some { stdinPresent := true } })]).2 =
      Except.error "Agent 'a' is not running" := by
  refine ⟨?_, ?_⟩
  · exact (C1_stop_then_send
      [("a", { id := "a", name := "cat", status := AgentStatus.Running, child := some { stdinPresent := true } })]
      "a" { id := "a", name := "cat", status := AgentStatus.Running, child := some { stdinPresent := true } }
      { stdinPresent := true } (Except.ok 0) rfl rfl).2.1
  · exact (C1_stop_then_send
      [("a", { id := "a", name := "cat", status := AgentStatus.Running, child := some { stdinPresent := true } })]
      "a" { id := "a", name := "cat", status := AgentStatus.Running, child := some { stdinPresent := true } }
      { stdinPresent := true } (Except.ok 0) rfl rfl).2.2.2 "hello" _

/-- C2: spawn(id, command, args) against an existing record: a Running
record makes it fail with the already-running error without touching the
registry; a terminal record is silently discarded and, when the launch
succeeds, replaced by a fresh Running record holding the new child. -/
theorem C2_spawn_guard (r : Registry) (id command : String)
    (args : List String) (launch : Except String Child) (a : AgentProcess)
    (hfind : Registry.find r id = some a) :
    (a.status = .Running →
      spawn_agent id command args launch r =
        { result := .error ("Agent '" ++ id ++ "' už běží"),
          registry := r, readerThreads := 0 }) ∧
    (a.status ≠ .Running → ∀ c, launch = .ok c →
      (spawn_agent id command args launch r).result =
        .ok { id := id, name := agentName command args, status := .Running } ∧
      (spawn_agent id command args launch r).registry =
        Registry.insert (Registry.erase r id) id
          { id := id, name := agentName command args, status := .Running, child := some c } ∧
      Registry.find (spawn_agent id command args launch r).registry id =
        some { id := id, name := agentName command args, status := .Running, child := some c }) := by
  constructor
  · intro ha
    simp [spawn_agent, hfind, ha]
  · intro ha c hc
    subst hc
    refine ⟨?_, ?_, ?_⟩
    · simp [spawn_agent, hfind, ha, spawnLaunch]
    · simp [spawn_agent, hfind, ha, spawnLaunch]
    · simp only [spawn_agent, hfind, ha, if_neg ha, spawnLaunch]
      exact Registry.find_insert_self _ id _

/-- C2, witness: a Running record rejects a respawn; a Stopped record is
replaced by a fresh Running one. -/
theorem C2_witness :
    spawn_agent "a" "node" [] (Except.ok { stdinPresent := true }) [("a", { id := "a", name := "node", status := AgentStatus.Running, child := some { stdinPresent := true } })] =
      { result := Except.error "Agent 'a' už běží",
        registry := [("a", { id := "a", name := "node", status := AgentStatus.Running, child := some { stdinPresent := true } })],
        readerThreads := 0 } ∧
    (spawn_agent "a" "node" [] (Except.ok { stdinPresent := true }) [("a", { id := "a", name := "node", status := AgentStatus.Stopped, child := none })]).result =
      Except.ok { id := "a", name := agentName "node" [], status := AgentStatus.Running } := by
  refine ⟨?_, ?_⟩
  · exact (C2_spawn_guard
      [("a", { id := "a", name := "node", status := AgentStatus.Running, child := some { stdinPresent := true } })]
      "a" "node" [] (Except.ok { stdinPresent := true })
      { id := "a", name := "node", status := AgentStatus.Running, child := some { stdinPresent := true } }
      rfl).1 rfl
  · exact ((C2_spawn_guard
      [("a", { id := "a", name := "node", status := AgentStatus.Stopped, child := none })]
      "a" "node" [] (Except.ok { stdinPresent := true })
      { id := "a", name := "node", status := AgentStatus.Stopped, child := none }
      rfl).2 (by decide) { stdinPresent := true } rfl).1

/-- C3, counterexample: a stream closing mid-line still yields an event
for the trailing partial line, because BufRead::lines returns the
remainder read by read_line even without a terminating newline: content
"hi\npt" produces events for both "hi" and "pt", not only for the
complete line "hi" as the claim states. -/
theorem C3_counterexample :
    readerEvents "a" "stdout" ['h', 'i', '\n', 'p', 't'] =
      [{ id := "a", data := "hi", stream := "stdout" },
       { id := "a", data := "pt", stream := "stdout" }] ∧
    readerEvents "a" "stdout" ['h', 'i', '\n', 'p', 't'] ≠
      [{ id := "a", data := "hi", stream := "stdout" }] := by
  constructor
  · rfl
  · decide

/-- C3, amended: for one output stream, every complete newline-terminated
line yields exactly one agent-output event with exactly that line (no
newline), in the original order; a stream closed mid-line yields one
final event carrying the partial remainder (it is not discarded). -/
theorem C3_reader_line_events (aid st : String) (ls : List String)
    (frag : String)
    (hls : ∀ l ∈ ls, '\n' ∉ l.data ∧ l.data.getLast? ≠ some '\r')
    (hfrag : '\n' ∉ frag.data) :
    readerEvents aid st (encodeStream ls frag) =
      (ls ++ if frag = "" then [] else [frag]).map
        (fun d => { id := aid, data := d, stream := st }) := by
  unfold readerEvents
  rw [linesOf_encodeStream ls frag hls hfrag]

/-- C3, witness for the amended theorem: two complete lines and a clean
closure yield exactly the two events in order. -/
theorem C3_witness :
    readerEvents "a" "stdout" (encodeStream ["hello", "world"] "") =
      ((["hello", "world"] ++ if ("" : String) = "" then [] else [""]).map
        (fun d => { id := "a", data := d, stream := "stdout" : AgentOutputEvent })) :=
  C3_reader_line_events "a" "stdout" ["hello", "world"] "" (by decide) (by decide)

/-- C4: the snapshot refreshes every Running record through a
non-blocking try_wait poll — clean exit becomes Stopped, non-zero exit
becomes Error carrying the exit code, a poll failure becomes Error
carrying the poll error — and returns exactly one AgentInfo per
registry record. -/
theorem C4_snapshot (poll : String → TryWaitResult) (r : Registry) :
    (get_agents_status poll r).1.length = r.length ∧
    (∀ id a, Registry.find r id = some a →
      Registry.find (get_agents_status poll r).2 id =
        some (refreshAgent (poll id) a)) ∧
    (∀ a c, a.status = .Running → a.child = some c →
      refreshAgent (.exited (some 0)) a = { a with status := .Stopped } ∧
      (∀ k : Int, ¬ k = 0 → refreshAgent (.exited (some k)) a =
        { a with status := .Error ("Exited with code " ++ toString k) }) ∧
      (∀ e, refreshAgent (.pollError e) a =
        { a with status := .Error ("Failed to poll status: " ++ e) }) ∧
      refreshAgent .stillRunning a = a) := by
  refine ⟨?_, ?_, ?_⟩
  · simp [get_agents_status]
  · intro id a h
    exact Registry.find_mapVal_of_find (fun p => refreshAgent (poll p.1) p.2) r id a h
  · intro a c ha hc
    refine ⟨?_, ?_, ?_, ?_⟩
    · simp [refreshAgent, ha, hc]
    · intro k hk
      simp [refreshAgent, ha, hc, hk]
    · intro e
      simp [refreshAgent, ha, hc]
    · simp [refreshAgent, ha, hc]

/-- C4, witness: a clean exit turns the one Running record into Stopped
in the refreshed registry, and a non-zero exit yields the Error status
with the code. -/
theorem C4_witness :
    Registry.find (get_agents_status (fun _ => TryWaitResult.exited (some 0)) [("a", { id := "a", name := "node", status := AgentStatus.Running, child := some { stdinPresent := true } })]).2 "a" =
      some (refreshAgent (TryWaitResult.exited (some 0)) { id := "a", name := "node", status := AgentStatus.Running, child := some { stdinPresent := true } }) ∧
    refreshAgent (TryWaitResult.exited (some 2)) { id := "a", name := "node", status := AgentStatus.Running, child := some { stdinPresent := true } } =
      { id := "a", name := "node", status := AgentStatus.Error ("Exited with code " ++ toString (2 : Int)), child := some { stdinPresent := true } } := by
  refine ⟨?_, ?_⟩
  · exact (C4_snapshot (fun _ => TryWaitResult.exited (some 0))
      [("a", { id := "a", name := "node", status := AgentStatus.Running, child := some { stdinPresent := true } })]).2.1
      "a" { id := "a", name := "node", status := AgentStatus.Running, child := some { stdinPresent := true } } rfl
  · exact ((C4_snapshot (fun _ => TryWaitResult.exited (some 0)) []).2.2
      { id := "a", name := "node", status := AgentStatus.Running, child := some { stdinPresent := true } }
      { stdinPresent := true } rfl rfl).2.1 2 (by decide)

/-- C5: send(id, text) fails with not-found when no record exists,
not-running when the status is not Running, and the no-handle or
no-stdin error when the handle or its input pipe is absent; on the
success path it writes the text, then a newline, then flushes, and each
failing step surfaces its error (a flush failure after the writes
succeeded included); with all three succeeding it returns unit. -/
theorem C5_send_cases (r : Registry) (id input : String) (eff : SendEffects) :
    (Registry.find r id = none →
      send_to_agent id input eff r = .error ("Agent '" ++ id ++ "' not found")) ∧
    (∀ a, Registry.find r id = some a → a.status ≠ .Running →
      send_to_agent id input eff r = .error ("Agent '" ++ id ++ "' is not running")) ∧
    (∀ a, Registry.find r id = some a → a.status = .Running → a.child = none →
      send_to_agent id input eff r = .error ("Agent '" ++ id ++ "' has no child process")) ∧
    (∀ a c, Registry.find r id = some a → a.status = .Running →
      a.child = some c → c.stdinPresent = false →
      send_to_agent id input eff r = .error ("Agent '" ++ id ++ "' stdin not available")) ∧
    (∀ a c, Registry.find r id = some a → a.status = .Running →
      a.child = some c → c.stdinPresent = true →
      ((∀ e, eff.writeInput = .error e →
        send_to_agent id input eff r = .error ("Failed to write to stdin: " ++ e)) ∧
      (∀ e, eff.writeInput = .ok () → eff.writeNewline = .error e →
        send_to_agent id input eff r = .error ("Failed to write newline: " ++ e)) ∧
      (∀ e, eff.writeInput = .ok () → eff.writeNewline = .ok () → eff.flush = .error e →
        send_to_agent id input eff r = .error ("Failed to flush stdin: " ++ e)) ∧
      (eff.writeInput = .ok () → eff.writeNewline = .ok () → eff.flush = .ok () →
        send_to_agent id input eff r = .ok ()))) := by
  refine ⟨?_, ?_, ?_, ?_, ?_⟩
  · intro h
    simp [send_to_agent, h]
  · intro a h ha
    simp [send_to_agent, h, ha]
  · intro a h ha hc
    simp [send_to_agent, h, ha, hc]
  · intro a c h ha hc hs
    simp [send_to_agent, h, ha, hc, hs]
  · intro a c h ha hc hs
    refine ⟨?_, ?_, ?_, ?_⟩
    · intro e he
      simp [send_to_agent, h, ha, hc, hs, he]
    · intro e h1 h2
      simp [send_to_agent, h, ha, hc, hs, h1, h2]
    · intro e h1 h2 h3
      simp [send_to_agent, h, ha, hc, hs, h1, h2, h3]
    · intro h1 h2 h3
      simp [send_to_agent, h, ha, hc, hs, h1, h2, h3]

/-- C5, witness: a Running record with a stdin pipe accepts the input
when all three stdin operations succeed, and surfaces a flush failure
that follows two successful writes. -/
theorem C5_witness :
    send_to_agent "a" "hello" { writeInput := Except.ok (), writeNewline := Except.ok (), flush := Except.ok () } [("a", { id := "a", name := "cat", status := AgentStatus.Running, child := some { stdinPresent := true } })] = Except.ok () ∧
    send_to_agent "a" "hello" { writeInput := Except.ok (), writeNewline := Except.ok (), flush := Except.error "pipe closed" } [("a", { id := "a", name := "cat", status := AgentStatus.Running, child := some { stdinPresent := true } })] =
      Except.error ("Failed to flush stdin: " ++ "pipe closed") := by
  refine ⟨?_, ?_⟩
  · exact ((C5_send_cases
      [("a", { id := "a", name := "cat", status := AgentStatus.Running, child := some { stdinPresent := true } })]
      "a" "hello" { writeInput := Except.ok (), writeNewline := Except.ok (), flush := Except.ok () }).2.2.2.2
      { id := "a", name := "cat", status := AgentStatus.Running, child := some { stdinPresent := true } }
      { stdinPresent := true } rfl rfl rfl rfl).2.2.2 rfl rfl rfl
  · exact ((C5_send_cases
      [("a", { id := "a", name := "cat", status := AgentStatus.Running, child := some { stdinPresent := true } })]
      "a" "hello" { writeInput := Except.ok (), writeNewline := Except.ok (), flush := Except.error "pipe closed" }).2.2.2.2
      { id := "a", name := "cat", status := AgentStatus.Running, child := some { stdinPresent := true } }
      { stdinPresent := true } rfl rfl rfl rfl).2.2.1 "pipe closed" rfl rfl rfl

/-- C6: when the OS launch fails (reached only when no Running record
blocks the spawn), spawn_agent returns the single descriptive launch
error, starts no reader thread, and leaves no record for the id in the
registry, so a subsequent snapshot excludes the id. -/
theorem C6_launch_failure (r : Registry) (id command : String)
    (args : List String) (e : String) (poll : String → TryWaitResult)
    (hwf : Registry.WF r)
    (hnr : ∀ a, Registry.find r id = some a → a.status ≠ .Running) :
    (spawn_agent id command args (.error e) r).result =
      .error ("Nepodařilo se spustit '" ++ command ++ "': " ++ e) ∧
    (spawn_agent id command args (.error e) r).readerThreads = 0 ∧
    Registry.find (spawn_agent id command args (.error e) r).registry id = none ∧
    (∀ info ∈ (get_agents_status poll
        (spawn_agent id command args (.error e) r).registry).1,
      info.id ≠ id) := by
  cases hf : Registry.find r id with
  | none =>
      have hsp : spawn_agent id command args (.error e) r =
          { result := .error ("Nepodařilo se spustit '" ++ command ++ "': " ++ e),
            registry := r, readerThreads := 0 } := by
        simp [spawn_agent, hf, spawnLaunch]
      rw [hsp]
      exact ⟨rfl, rfl, hf, snapshot_excludes poll r id hwf hf⟩
  | some a =>
      have hna := hnr a hf
      have hsp : spawn_agent id command args (.error e) r =
          { result := .error ("Nepodařilo se spustit '" ++ command ++ "': " ++ e),
            registry := Registry.erase r id, readerThreads := 0 } := by
        simp [spawn_agent, hf, hna, spawnLaunch]
      rw [hsp]
      exact ⟨rfl, rfl, Registry.find_erase_self r id,
        snapshot_excludes poll _ id (Registry.WF_erase r id hwf)
          (Registry.find_erase_self r id)⟩

/-- C6, witness: the spec scenario spawn("b", "no-such-binary-xyz", [])
against an empty registry. -/
theorem C6_witness :
    (spawn_agent "b" "no-such-binary-xyz" [] (Except.error "No such file or directory (os error 2)") []).result =
      Except.error ("Nepodařilo se spustit '" ++ "no-such-binary-xyz" ++ "': " ++ "No such file or directory (os error 2)") ∧
    (spawn_agent "b" "no-such-binary-xyz" [] (Except.error "No such file or directory (os error 2)") []).readerThreads = 0 ∧
    Registry.find (spawn_agent "b" "no-such-binary-xyz" [] (Except.error "No such file or directory (os error 2)") []).registry "b" = none := by
  have h := C6_launch_failure [] "b" "no-such-binary-xyz" []
    "No such file or directory (os error 2)" (fun _ => TryWaitResult.stillRunning)
    (by decide) (fun a h => by simp [Registry.find, List.find?] at h)
  exact ⟨h.1, h.2.1, h.2.2.1⟩

/-- C7: discover_agents only emits entries whose command resolved on the
search path (carrying that resolved path), never two entries with the
same identifier, and every emitted entry has available = true. -/
theorem C7_discover (containsPkg : String → Bool)
    (findOnPath : String → Option String)
    (probeFor : String → ProbeOutcome) :
    (∀ a ∈ discover_agents containsPkg findOnPath probeFor,
      (∃ p, findOnPath a.command = some p ∧ a.path = p) ∧
        a.available = true) ∧
    ((discover_agents containsPkg findOnPath probeFor).map
      (fun a => a.id)).Nodup := by
  have hid : ∀ sig a, discoverEntry findOnPath probeFor sig = some a →
      a.id = sig.command := by
    intro sig a hfa
    unfold discoverEntry at hfa
    cases hp : findOnPath sig.command with
    | none => rw [hp] at hfa; exact absurd hfa (by simp)
    | some path => rw [hp] at hfa; injection hfa with hfa; rw [← hfa]
  constructor
  · intro a ha
    simp only [discover_agents, List.mem_filterMap] at ha
    obtain ⟨sig, hsig, hf⟩ := ha
    unfold discoverEntry at hf
    cases hp : findOnPath sig.command with
    | none => rw [hp] at hf; exact absurd hf (by simp)
    | some path =>
        rw [hp] at hf
        injection hf with hf
        rw [← hf]
        exact ⟨⟨path, hp, rfl⟩, rfl⟩
  · show ((agent_signatures.filterMap
        (discoverEntry findOnPath probeFor)).map (fun a => a.id)).Nodup
    exact List.Nodup.sublist
      (filterMap_id_sublist (discoverEntry findOnPath probeFor) hid agent_signatures)
      (by decide)

/-- C7, witness: with only "claude" resolving on the path, the emitted
entry carries the resolved path and available = true. -/
theorem C7_witness :
    (∃ p, (fun c : String => if c = "claude" then some "/usr/bin/claude" else none) ({ id := "claude", name := "Claude Code", short_name := "CC", command := "claude", path := "/usr/bin/claude", color := "#00FF64", version := "", available := true } : DiscoveredAgent).command = some p ∧ ({ id := "claude", name := "Claude Code", short_name := "CC", command := "claude", path := "/usr/bin/claude", color := "#00FF64", version := "", available := true } : DiscoveredAgent).path = p) ∧
    ({ id := "claude", name := "Claude Code", short_name := "CC", command := "claude", path := "/usr/bin/claude", color := "#00FF64", version := "", available := true } : DiscoveredAgent).available = true := by
  exact (C7_discover (fun _ => false)
    (fun c => if c = "claude" then some "/usr/bin/claude" else none)
    (fun _ => ProbeOutcome.timeout)).1 _ (by decide)

/-- C8, counterexample: the claim says a non-timeout probe prefers the
standard-output text; but the code reads the pipes only on a successful
exit status — a probe that exits 1 having printed "v1.2.3" yields the
empty string. -/
theorem C8_counterexample :
    get_version (ProbeOutcome.exited (some 1) "v1.2.3\n" "") = "" ∧
    get_version (ProbeOutcome.exited (some 1) "v1.2.3\n" "") ≠ "v1.2.3" := by
  exact ⟨rfl, by decide⟩

/-- C8, amended: get_version waits at most the 3-second bound; a timeout
(and likewise a wait failure or a non-zero exit) kills the probe and
yields the empty string rather than an error; only a successful exit
reads the output, preferring the trimmed standard-output line, falling
back to the error-output line when it is empty — the empty string when
both are; a spawn failure also yields the empty string. -/
theorem C8_version_probe (e out errLine : String) (k : Int) :
    get_version_timeout_secs = 3 ∧
    get_version_run ProbeOutcome.timeout = ("", true) ∧
    get_version_run (ProbeOutcome.waitFailed e) = ("", true) ∧
    get_version_run (ProbeOutcome.spawnFailed e) = ("", false) ∧
    get_version_run (ProbeOutcome.exited none out errLine) = ("", true) ∧
    get_version_run (ProbeOutcome.exited (some k) out errLine) =
      (if k = 0 then
        (if out.trim.isEmpty then (errLine.trim, false) else (out.trim, false))
       else ("", true)) := by
  refine ⟨rfl, rfl, rfl, rfl, rfl, ?_⟩
  by_cases hk : k = 0
  · subst hk
    simp [get_version_run]
  · simp [get_version_run, hk]

/-- C9 (spec-modelled, the one-shot mode has no source under src/): run
fails with AlreadyBusy while the same id is mid-invocation — the
check-and-mark is one atomic operation on the Busy Set — and the busy
marker is cleared unconditionally when the background work finishes,
the launch-failure outcome included, so a failed launch never leaves
the id busy. -/
theorem C9_run_guard (busy : List String) (id : String)
    (launch : Except String Int) :
    (id ∈ busy → run_agent busy id launch = (.error "AlreadyBusy", busy, none)) ∧
    (id ∉ busy →
      runCheckAndMark busy id = .ok (id :: busy) ∧
      (∀ launch2, run_agent (id :: busy) id launch2 =
        (.error "AlreadyBusy", id :: busy, none)) ∧
      id ∉ (run_agent busy id launch).2.1) := by
  constructor
  · intro h
    simp [run_agent, runCheckAndMark, h]
  · intro h
    refine ⟨by simp [runCheckAndMark, h], ?_, ?_⟩
    · intro launch2
      simp [run_agent, runCheckAndMark]
    · simp [run_agent, runCheckAndMark, h, runFinish, List.mem_filter]

/-- C9, witness: a busy id rejects a second run unchanged; a free id that
suffers a launch failure is not busy afterwards. -/
theorem C9_witness :
    run_agent ["a"] "a" (Except.error "boom") =
      (Except.error "AlreadyBusy", ["a"], none) ∧
    "a" ∉ (run_agent [] "a" (Except.error "boom")).2.1 := by
  refine ⟨?_, ?_⟩
  · exact (C9_run_guard ["a"] "a" (Except.error "boom")).1 (by decide)
  · exact ((C9_run_guard [] "a" (Except.error "boom")).2 (by decide)).2.2

/-- C10 (implicit): a terminal record is removed before the launch
attempt and the removal is not rolled back — after a failed launch the
registry holds no record for the id at all. -/
theorem C10_no_rollback (r : Registry) (id command : String)
    (args : List String) (e : String) (a : AgentProcess)
    (hfind : Registry.find r id = some a) (hterm : a.status ≠ .Running) :
    (spawn_agent id command args (.error e) r).registry = Registry.erase r id ∧
    Registry.find (spawn_agent id command args (.error e) r).registry id = none ∧
    (spawn_agent id command args (.error e) r).result =
      .error ("Nepodařilo se spustit '" ++ command ++ "': " ++ e) := by
  have hsp : spawn_agent id command args (.error e) r =
      { result := .error ("Nepodařilo se spustit '" ++ command ++ "': " ++ e),
        registry := Registry.erase r id, readerThreads := 0 } := by
    simp [spawn_agent, hfind, hterm, spawnLaunch]
  rw [hsp]
  exact ⟨rfl, Registry.find_erase_self r id, rfl⟩

/-- C10, witness: an Error-status record disappears when the respawn
fails at launch. -/
theorem C10_witness :
    (spawn_agent "a" "node" [] (Except.error "boom") [("a", { id := "a", name := "old", status := AgentStatus.Error "crashed", child := none })]).registry =
      Registry.erase [("a", { id := "a", name := "old", status := AgentStatus.Error "crashed", child := none })] "a" ∧
    Registry.find (spawn_agent "a" "node" [] (Except.error "boom") [("a", { id := "a", name := "old", status := AgentStatus.Error "crashed", child := none })]).registry "a" = none := by
  have h := C10_no_rollback
    [("a", { id := "a", name := "old", status := AgentStatus.Error "crashed", child := none })]
    "a" "node" [] "boom"
    { id := "a", name := "old", status := AgentStatus.Error "crashed", child := none }
    rfl (by decide)
  exact ⟨h.1, h.2.1⟩

end AgentHub
